import Mathlib

/-!
# Verification of the collaborative LLM forex trading glue layer

Shallow embedding, in Lean 4, of the Python modules
`src/utils/api_connectors.py`, `src/core/data_collector.py` and
`src/agents/executor_agent.py`, together with proofs of the testable
properties stated in the specification.

External effects (brokerage SDK calls, market-data SDK calls, the LLM
completion endpoint, wall-clock timestamps) are modelled as explicit
oracle arguments: a value of type `Except String α` stands for one call
of the corresponding vendor-SDK function, `.error e` being the call
raising a Python exception whose message is `e`.  Functions that in
Python may issue calls additionally return the list of calls they made,
so that "does not invoke the endpoint" is a statement about that list.
-/

namespace Forest

/-- A Python value as it appears in the dictionaries this code base
passes around: `None`, strings, booleans, numbers (floats and ints are
merged into `Rat`, which is exact for every value the code produces),
lists and dictionaries (modelled as association lists in insertion
order, as Python dicts preserve insertion order and have unique keys). -/
inductive PyVal where
  | none
  | str (s : String)
  | bool (b : Bool)
  | rat (q : Rat)
  | list (xs : List PyVal)
  | dict (kvs : List (String × PyVal))

/-- A Python dictionary with string keys. -/
abbrev Dict := List (String × PyVal)

/-- `d.get(k)` / `d.get(k, default)`: first value bound to `k`, else the
default. -/
def dictGetD (d : Dict) (k : String) (dflt : PyVal) : PyVal :=
  match d.find? (fun kv => kv.1 == k) with
  | some kv => kv.2
  | Option.none => dflt

/-- `d.get(k)`, defaulting to `None`. -/
def dictGet (d : Dict) (k : String) : PyVal :=
  dictGetD d k .none

/-- `k in d` for a dict: key membership. -/
def dictContains (d : Dict) (k : String) : Bool :=
  d.any (fun kv => kv.1 == k)

/-- Python truthiness: `None`/`False`/`0`/`""`/`[]`/`{}` are falsy. -/
def pyTruthy : PyVal → Bool
  | .none => false
  | .str s => s != ""
  | .bool b => b
  | .rat q => q != 0
  | .list xs => !xs.isEmpty
  | .dict kvs => !kvs.isEmpty

/-- Python `v == s` for a string literal `s`: true exactly when `v` is
that string (equality between a string and a value of any other type is
`False` in Python). -/
def pyIsStr (v : PyVal) (s : String) : Bool :=
  match v with
  | .str t => t == s
  | _ => false

/-- `float(v)`: succeeds on numbers and booleans, raises `TypeError`
otherwise (a numeric string would also convert, but no caller feeds
one). -/
def pyFloat : PyVal → Except String Rat
  | .rat q => .ok q
  | .bool b => .ok (if b then 1 else 0)
  | _ => .error "TypeError: float() argument"

/-- `d[k]` on a dict: the bound value, or a `KeyError`. -/
def dictSubscript (d : Dict) (k : String) : Except String PyVal :=
  match d.find? (fun kv => kv.1 == k) with
  | some kv => .ok kv.2
  | Option.none => .error ("KeyError: " ++ k)

/-- `v[0]` in Python: first element of a list, first character of a
string; a `TypeError`/`IndexError` otherwise. -/
def pyIndex0 : PyVal → Except String PyVal
  | .list (x :: _) => .ok x
  | .list [] => .error "IndexError: list index out of range"
  | .str s =>
      match s.toList with
      | c :: _ => .ok (.str (String.mk [c]))
      | [] => .error "IndexError: string index out of range"
  | _ => .error "TypeError: not subscriptable"

/-! ## `src/utils/api_connectors.py` — `execute_trade` -/

/-- The keyword arguments of one `ig_service.create_open_position` call. -/
structure OpenCall where
  epic : PyVal
  direction : PyVal
  size : Rat
  order_type : String
  currency_code : String
  expiry : String
  force_open : Bool
  guaranteed_stop : Bool
  stop_level : Option Rat
  limit_level : Option Rat

/-- Body of `execute_trade(ig_service, trade)` (everything inside its
outer `try`).  `acctCheck` stands for the account-information block that
is wrapped in its own inner `try`/`except` and only logs, so its failure
is swallowed; `oracle` is `ig_service.create_open_position`;
`currency` is `os.getenv("ACCOUNT_CURRENCY", "GBP")`; `ts` the UTC
timestamp string.  The `.ok` value is the `(True, trade_data)` pair the
Python function returns when nothing raised. -/
def execute_trade_raw (oracle : OpenCall → Except String Dict)
    (acctCheck : Except String Unit) (trade : Dict)
    (currency ts : String) : Except String (Bool × Dict) := do
  let _ := match acctCheck with
    | .ok _ => ()
    | .error _ => ()
  let epic ← dictSubscript trade "epic"
  let direction ← dictSubscript trade "direction"
  let size ← pyFloat (← dictSubscript trade "size")
  let stop_level ←
    if dictContains trade "initial_stop_loss" then do
      let v ← dictSubscript trade "initial_stop_loss"
      let q ← pyFloat v
      pure (some q)
    else
      pure Option.none
  let limit_level ←
    if dictContains trade "take_profit_levels" &&
       pyTruthy (dictGet trade "take_profit_levels") then do
      let v ← dictSubscript trade "take_profit_levels"
      let q ← pyFloat (← pyIndex0 v)
      pure (some q)
    else
      pure Option.none
  let response ← oracle
    { epic := epic, direction := direction, size := size,
      order_type := "MARKET", currency_code := currency, expiry := "DFB",
      force_open := true, guaranteed_stop := false,
      stop_level := stop_level, limit_level := limit_level }
  let take_profit ←
    if pyTruthy (dictGet trade "take_profit_levels") then
      pyIndex0 (dictGet trade "take_profit_levels")
    else
      pure PyVal.none
  let trade_data : Dict :=
    [("timestamp", .str ts),
     ("epic", dictGet trade "epic"),
     ("direction", dictGet trade "direction"),
     ("size", dictGet trade "size"),
     ("entry_price", dictGet trade "entry_price"),
     ("stop_loss", dictGet trade "initial_stop_loss"),
     ("take_profit", take_profit),
     ("risk_percent", dictGet trade "risk_percent"),
     ("risk_reward", dictGet trade "risk_reward"),
     ("pattern", dictGet trade "pattern"),
     ("stop_management", dictGetD trade "stop_management" (.list [])),
     ("outcome", .str (if pyIsStr (dictGet response "dealStatus") "ACCEPTED"
                       then "EXECUTED" else "FAILED")),
     ("deal_id", dictGet response "dealId"),
     ("reason", dictGetD response "reason" (.str ""))]
  pure (true, trade_data)

/-- `execute_trade(ig_service, trade)`: the outer `except Exception`
turns any raise into `(False, {"outcome": "ERROR", "reason": str(e)})`. -/
def execute_trade (oracle : OpenCall → Except String Dict)
    (acctCheck : Except String Unit) (trade : Dict)
    (currency ts : String) : Bool × Dict :=
  match execute_trade_raw oracle acctCheck trade currency ts with
  | .ok r => r
  | .error e => (false, [("outcome", .str "ERROR"), ("reason", .str e)])

/-! ## `src/utils/api_connectors.py` — `close_position` -/

/-- One row of the pandas positions DataFrame as fetched from the
broker: the columns `close_position` reads.  Broker rows always carry a
string deal id, a direction string and a numeric size. -/
structure PositionRow where
  dealId : String
  direction : String
  size : Rat
  deriving DecidableEq, Repr

/-- The pandas row selection `positions[positions["dealId"] == deal_id]`:
element-wise comparison of the string-valued `dealId` column with the
Python value `deal_id`. -/
def matchingRows (positions : List PositionRow) (deal_id : PyVal) : List PositionRow :=
  positions.filter (fun r => pyIsStr deal_id r.dealId)

/-- The keyword arguments of one `ig_service.close_open_position` call. -/
structure CloseCall where
  deal_id : PyVal
  direction : String
  size : Rat
  order_type : String

/-- `close_position(ig_service, position_action, positions)` from
`src/utils/api_connectors.py`.  `oracle` stands for
`ig_service.close_open_position`; `ts` is the
`datetime.now(timezone.utc).isoformat()` string.  Returns the Python
return value `(bool, dict)` paired with the list of
`close_open_position` calls issued. -/
def close_position (oracle : CloseCall → Except String Dict)
    (position_action : Dict) (positions : List PositionRow) (ts : String) :
    (Bool × Dict) × List CloseCall :=
  let deal_id := dictGet position_action "dealId"
  let epic := dictGet position_action "epic"
  match matchingRows positions deal_id with
  | [] =>
      ((false, [("outcome", .str "FAILED"), ("reason", .str "Position not found")]), [])
  | row :: _ =>
      let close_direction := if row.direction == "BUY" then "SELL" else "BUY"
      let call : CloseCall := ⟨deal_id, close_direction, row.size, "MARKET"⟩
      match oracle call with
      | .error e =>
          ((false, [("outcome", .str "ERROR"), ("reason", .str e)]), [call])
      | .ok response =>
          let close_data : Dict :=
            [("timestamp", .str ts),
             ("epic", epic),
             ("direction", .str "CLOSE"),
             ("outcome", .str (if pyIsStr (dictGet response "dealStatus") "ACCEPTED"
                               then "CLOSED" else "FAILED")),
             ("deal_id", deal_id),
             ("reason", dictGetD position_action "reason" (.str ""))]
          ((true, close_data), [call])

/-! ## `src/core/data_collector.py` -/

/-- Substring test on lists of characters (used for Python's
`needle in haystack` on strings). -/
def charsContain (needle : List Char) : List Char → Bool
  | [] => needle.isEmpty
  | c :: cs => needle.isPrefixOf (c :: cs) || charsContain needle cs

/-- Python `needle in hay` for strings: substring containment. -/
def hasSubstr (hay needle : String) : Bool :=
  charsContain needle.toList hay.toList

/-- Python `k in v` for a string key `k`: key membership for a dict,
element membership for a list, substring test for a string, and a
`TypeError` otherwise. -/
def pyContains (v : PyVal) (k : String) : Except String Bool :=
  match v with
  | .dict d => .ok (dictContains d k)
  | .list xs => .ok (xs.any (fun x => pyIsStr x k))
  | .str s => .ok (hasSubstr s k)
  | _ => .error "TypeError: argument is not iterable"

/-- Python `v[k]` for a string key: dict subscription, `TypeError`
otherwise. -/
def pySubscript (v : PyVal) (k : String) : Except String PyVal :=
  match v with
  | .dict d => dictSubscript d k
  | _ => .error "TypeError: not subscriptable"

/-- Python `v.get(k)`: defined on dicts only (`AttributeError`
otherwise). -/
def pyGet (v : PyVal) (k : String) : Except String PyVal :=
  match v with
  | .dict d => .ok (dictGet d k)
  | _ => .error "AttributeError: no attribute get"

/-- A Python number out of a `PyVal` (`True`/`False` count as `1`/`0`);
`TypeError` otherwise.  Used where the code applies an arithmetic
operation. -/
def pyToNum : PyVal → Except String Rat
  | .rat q => .ok q
  | .bool b => .ok (if b then 1 else 0)
  | _ => .error "TypeError: unsupported operand type"

/-- Python whitespace (`str.strip` / `int()` surrounding whitespace). -/
def isPyWs (c : Char) : Bool :=
  c == ' ' || c == '\t' || c == '\n' || c == '\r' || c == '\x0c' || c == '\x0b'

/-- Decimal digits of a natural number out of characters. -/
def digitsVal (ds : List Char) : Nat :=
  ds.foldl (fun n c => n * 10 + (c.toNat - '0'.toNat)) 0

/-- Python `int(s)` on the strings this code base meets: an optionally
signed decimal literal with surrounding whitespace (digit-group
underscores are not modelled); `ValueError` otherwise. -/
def pyIntParse (s : String) : Except String Int :=
  let cs := s.toList.dropWhile isPyWs
  let cs := (cs.reverse.dropWhile isPyWs).reverse
  let (neg, ds) :=
    match cs with
    | '-' :: rest => (true, rest)
    | '+' :: rest => (false, rest)
    | _ => (false, cs)
  if ds.isEmpty || !ds.all Char.isDigit then
    .error ("ValueError: invalid literal for int: " ++ s)
  else
    .ok (if neg then -(digitsVal ds : Int) else (digitsVal ds : Int))

/-- Python `s.split(sep)` for a one-character separator. -/
def splitOnChar (sep : Char) : List Char → List (List Char)
  | [] => [[]]
  | c :: rest =>
      match splitOnChar sep rest with
      | [] => [[]]
      | acc :: accs =>
          if c == sep then [] :: acc :: accs else (c :: acc) :: accs

/-- Python `s.split(":")` as used on the timeframe strings. -/
def pySplit (s : String) (sep : Char) : List String :=
  (splitOnChar sep s.toList).map (fun cs => String.mk cs)

/-- Python dict assignment `d[k] = v`: replace in place if the key is
present, else append. -/
def dictSet (d : Dict) (k : String) (v : PyVal) : Dict :=
  if dictContains d k then
    d.map (fun kv => if kv.1 == k then (k, v) else kv)
  else
    d ++ [(k, v)]

/-- `DataCollector.get_price_snapshot(epic)`.  `fetch` stands for the
one `self.ig.fetch_market_by_epic(epic)` call; `ts` for the UTC
timestamp string.  A Python return of `None` is `Option.none`; the
enclosing `try`/`except` maps any raise to `None` as well. -/
def get_price_snapshot (fetch : Except String PyVal) (epic ts : String) :
    Option Dict :=
  let body : Except String (Option Dict) := do
    let response ← fetch
    let cond ← if pyTruthy response then pyContains response "snapshot"
               else pure false
    if cond then do
      let snapshot ← pySubscript response "snapshot"
      let raw_bid ← pyGet snapshot "bid"
      let raw_offer ← pyGet snapshot "offer"
      let divisor : Rat := if hasSubstr epic "JPY" then 100 else 10000
      let bid ← match raw_bid with
        | .none => pure PyVal.none
        | v => do pure (PyVal.rat ((← pyToNum v) / divisor))
      let offer ← match raw_offer with
        | .none => pure PyVal.none
        | v => do pure (PyVal.rat ((← pyToNum v) / divisor))
      pure (some [("bid", bid), ("offer", offer),
                  ("epic", .str epic), ("timestamp", .str ts)])
    else
      pure Option.none
  match body with
  | .ok v => v
  | .error _ => Option.none

/-- The static epic → Polygon-ticker table of
`DataCollector.get_market_data`. -/
def ticker_map : List (String × String) :=
  [("CS.D.EURUSD.TODAY.IP", "C:EURUSD"),
   ("CS.D.USDJPY.TODAY.IP", "C:USDJPY"),
   ("CS.D.GBPUSD.TODAY.IP", "C:GBPUSD"),
   ("CS.D.AUDUSD.TODAY.IP", "C:AUDUSD"),
   ("CS.D.USDCAD.TODAY.IP", "C:USDCAD"),
   ("CS.D.USDCHF.TODAY.IP", "C:USDCHF"),
   ("CS.D.NZDUSD.TODAY.IP", "C:NZDUSD"),
   ("CS.D.EURJPY.TODAY.IP", "C:EURJPY"),
   ("CS.D.EURGBP.TODAY.IP", "C:EURGBP"),
   ("CS.D.GBPJPY.TODAY.IP", "C:GBPJPY"),
   ("CS.D.AUDJPY.TODAY.IP", "C:AUDJPY"),
   ("CS.D.AUDNZD.TODAY.IP", "C:AUDNZD")]

/-- One OHLCV aggregate as returned by the Polygon SDK (`open_` models
the SDK attribute `open`, a Lean keyword). -/
structure Agg where
  timestamp : Rat
  open_ : Rat
  high : Rat
  low : Rat
  close : Rat
  volume : Rat

/-- The arguments of one `self.polygon.get_aggs` call.  The
`from_`/`to_` date strings are produced by `strftime` from
`now - timedelta(days=lookback_days)` and `now`; the model receives the
formatters as arguments. -/
structure PolyCall where
  ticker : String
  multiplier : Int
  timespan : String
  from_ : String
  to_ : String
  limit : Nat

/-- The per-bar record `get_market_data` builds from one aggregate
(`fmt` stands for `datetime.fromtimestamp(·, tz=utc).isoformat()`). -/
def aggToDict (fmt : Rat → String) (a : Agg) : PyVal :=
  .dict [("timestamp", .str (fmt (a.timestamp / 1000))),
         ("open", .rat a.open_),
         ("high", .rat a.high),
         ("low", .rat a.low),
         ("close", .rat a.close),
         ("volume", .rat a.volume)]

/-- The spec-reading and timeframe-parsing statements of one loop
iteration of `get_market_data`: the `config["timeframe"]` /
`config["lookback_days"]` subscripts, the `":" in timeframe` test and
split, and the date-range computation, producing the `get_aggs` call
arguments (or the raise). -/
def mdParse (ticker : String) (dstr : Rat → String) (toDate : String)
    (config : Dict) : Except String PolyCall := do
  let timeframeV ← dictSubscript config "timeframe"
  let lookbackV ← dictSubscript config "lookback_days"
  let tf ← match timeframeV with
    | .str s => Except.ok s
    | _ => Except.error "TypeError: argument is not iterable"
  let mt ← if hasSubstr tf ":" then
      match pySplit tf ':' with
      | p0 :: p1 :: _ => do
          let m ← pyIntParse p0
          pure (m, p1)
      | _ => Except.error "IndexError: list index out of range"
    else
      pure ((1 : Int), tf)
  let lookback ← pyToNum lookbackV
  pure { ticker := ticker, multiplier := mt.1, timespan := mt.2,
         from_ := dstr lookback, to_ := toDate, limit := 100 }

/-- One iteration of the timeframe loop of `get_market_data`:
read and parse the timeframe spec, issue the `get_aggs` call, and build
this key's entry (`Option.none` when the fetch returned no bars, which
the loop `continue`s past).  Returns the raise-or-value outcome plus the
`get_aggs` calls issued. -/
def mdStep (poly : PolyCall → Except String (List Agg)) (ticker : String)
    (dstr : Rat → String) (toDate : String) (fmt : Rat → String)
    (key : String) (config : Dict) :
    Except String (Option (String × PyVal)) × List PolyCall :=
  match mdParse ticker dstr toDate config with
  | .error e => (.error e, [])
  | .ok call =>
      match poly call with
      | .error e => (.error e, [call])
      | .ok aggs =>
          if aggs.isEmpty then (.ok Option.none, [call])
          else (.ok (some (key, .list (aggs.map (aggToDict fmt)))), [call])

/-- The timeframe loop of `get_market_data`, folded left over
`timeframes.items()`, accumulating the `results` dict and the call
log; a raise aborts the loop. -/
def mdLoop (poly : PolyCall → Except String (List Agg)) (ticker : String)
    (dstr : Rat → String) (toDate : String) (fmt : Rat → String) :
    List (String × Dict) → Dict → List PolyCall →
    Except String Dict × List PolyCall
  | [], acc, calls => (.ok acc, calls)
  | (key, config) :: rest, acc, calls =>
      match mdStep poly ticker dstr toDate fmt key config with
      | (.error e, newCalls) => (.error e, calls ++ newCalls)
      | (.ok Option.none, newCalls) =>
          mdLoop poly ticker dstr toDate fmt rest acc (calls ++ newCalls)
      | (.ok (some (k, v)), newCalls) =>
          mdLoop poly ticker dstr toDate fmt rest (dictSet acc k v)
            (calls ++ newCalls)

/-- The default `timeframes` argument of `get_market_data` (used when
the caller passes `None`). -/
def default_timeframes : List (String × Dict) :=
  [("m15", [("timeframe", .str "15:minute"), ("lookback_days", .rat 1)]),
   ("h1", [("timeframe", .str "hour"), ("lookback_days", .rat 2)]),
   ("h4", [("timeframe", .str "4:hour"), ("lookback_days", .rat 5)])]

/-- `DataCollector.get_market_data(epic, timeframes)`.  `poly` stands
for `self.polygon.get_aggs`, `igFetch` for the
`self.ig.fetch_market_by_epic` call inside `get_price_snapshot`.
Returns the Python result dict paired with the list of `get_aggs`
calls issued.  An unknown epic returns `{}` before the `try` block; a
raise inside the `try` also returns `{}`. -/
def get_market_data (poly : PolyCall → Except String (List Agg))
    (igFetch : Except String PyVal) (epic : String)
    (timeframes : List (String × Dict)) (dstr : Rat → String)
    (toDate : String) (fmt : Rat → String) (ts : String) :
    Dict × List PolyCall :=
  match ticker_map.lookup epic with
  | Option.none => ([], [])
  | some ticker =>
      match mdLoop poly ticker dstr toDate fmt timeframes [] [] with
      | (.error _, calls) => ([], calls)
      | (.ok results, calls) =>
          let snapshot := get_price_snapshot igFetch epic ts
          match snapshot with
          | some d =>
              if !d.isEmpty then (dictSet results "current" (.dict d), calls)
              else (results, calls)
          | Option.none => (results, calls)

/-! ## `src/agents/executor_agent.py`

The LLM response body is a string that `_call_llm` feeds to
`json.loads`, the Python standard-library JSON decoder.  `Json` and
`jsonLoads` below model that decoder on standard JSON documents
(ints and floats merged into `Rat`; `NaN`/`Infinity` extensions and
lone surrogates not modelled — responses requested with
`response_format={"type": "json_object"}` never contain them). -/

/-- A parsed JSON document. -/
inductive Json where
  | null
  | bool (b : Bool)
  | num (q : Rat)
  | str (s : String)
  | arr (xs : List Json)
  | obj (kvs : List (String × Json))

/-- JSON whitespace (also the characters Python's `re` counts for `\s`
in the ASCII range relevant here, plus `\f`/`\v` for the regex use). -/
def isJsonWs (c : Char) : Bool :=
  c == ' ' || c == '\t' || c == '\n' || c == '\r'

/-- Python regex `\s` (ASCII part; the response strings at issue are
ASCII). -/
def isReWs (c : Char) : Bool :=
  c == ' ' || c == '\t' || c == '\n' || c == '\r' ||
  c == '\x0c' || c == '\x0b'

/-- Hex digit value. -/
def hexVal (c : Char) : Option Nat :=
  if '0' ≤ c ∧ c ≤ '9' then some (c.toNat - '0'.toNat)
  else if 'a' ≤ c ∧ c ≤ 'f' then some (c.toNat - 'a'.toNat + 10)
  else if 'A' ≤ c ∧ c ≤ 'F' then some (c.toNat - 'A'.toNat + 10)
  else Option.none

/-- Four hex digits. -/
def parseHex4 : List Char → Option (Nat × List Char)
  | a :: b :: c :: d :: rest => do
      let va ← hexVal a
      let vb ← hexVal b
      let vc ← hexVal c
      let vd ← hexVal d
      pure (((va * 16 + vb) * 16 + vc) * 16 + vd, rest)
  | _ => Option.none

/-- Body of a JSON string literal, after the opening quote: characters
up to the closing quote, with the JSON escapes (`\uXXXX` surrogate
pairs combined, as `json.loads` does). -/
def parseJStr (fuel : Nat) (acc : List Char) (cs : List Char) :
    Option (String × List Char) :=
  match fuel with
  | 0 => Option.none
  | fuel + 1 =>
    match cs with
    | [] => Option.none
    | '"' :: rest => some (String.mk acc.reverse, rest)
    | '\\' :: 'u' :: rest =>
        match parseHex4 rest with
        | Option.none => Option.none
        | some (n, rest2) =>
          if 0xD800 ≤ n ∧ n < 0xDC00 then
            match rest2 with
            | '\\' :: 'u' :: rest3 =>
                match parseHex4 rest3 with
                | some (m, rest4) =>
                    if 0xDC00 ≤ m ∧ m < 0xE000 then
                      parseJStr fuel
                        (Char.ofNat (0x10000 + (n - 0xD800) * 0x400 + (m - 0xDC00)) :: acc)
                        rest4
                    else Option.none
                | Option.none => Option.none
            | _ => Option.none
          else if 0xDC00 ≤ n ∧ n < 0xE000 then Option.none
          else parseJStr fuel (Char.ofNat n :: acc) rest2
    | '\\' :: e :: rest =>
        match e with
        | '"' => parseJStr fuel ('"' :: acc) rest
        | '\\' => parseJStr fuel ('\\' :: acc) rest
        | '/' => parseJStr fuel ('/' :: acc) rest
        | 'b' => parseJStr fuel ('\x08' :: acc) rest
        | 'f' => parseJStr fuel ('\x0c' :: acc) rest
        | 'n' => parseJStr fuel ('\n' :: acc) rest
        | 'r' => parseJStr fuel ('\r' :: acc) rest
        | 't' => parseJStr fuel ('\t' :: acc) rest
        | _ => Option.none
    | c :: rest =>
        if c.toNat < 0x20 then Option.none
        else parseJStr fuel (c :: acc) rest

/-- A JSON number literal, returning its exact rational value. -/
def parseJNum (cs : List Char) : Option (Rat × List Char) :=
  let (neg, cs1) :=
    match cs with
    | '-' :: rest => (true, rest)
    | _ => (false, cs)
  let intPart : Option (Nat × List Char) :=
    match cs1 with
    | '0' :: c :: rest => if c.isDigit then Option.none else some (0, c :: rest)
    | ['0'] => some (0, [])
    | c :: _ =>
        if c.isDigit then
          let ds := cs1.takeWhile Char.isDigit
          some (digitsVal ds, cs1.dropWhile Char.isDigit)
        else Option.none
    | [] => Option.none
  match intPart with
  | Option.none => Option.none
  | some (ip, cs2) =>
    let fracPart : Option (Rat × List Char) :=
      match cs2 with
      | '.' :: rest =>
          let ds := rest.takeWhile Char.isDigit
          if ds.isEmpty then Option.none
          else some ((digitsVal ds : Rat) / ((10 : Rat) ^ ds.length),
                     rest.dropWhile Char.isDigit)
      | _ => some (0, cs2)
    match fracPart with
    | Option.none => Option.none
    | some (fp, cs3) =>
      let expPart : Option (Int × List Char) :=
        match cs3 with
        | e :: rest =>
            if e == 'e' || e == 'E' then
              let (esign, rest2) :=
                match rest with
                | '+' :: r => ((1 : Int), r)
                | '-' :: r => ((-1 : Int), r)
                | _ => ((1 : Int), rest)
              let ds := rest2.takeWhile Char.isDigit
              if ds.isEmpty then Option.none
              else some (esign * (digitsVal ds : Int),
                         rest2.dropWhile Char.isDigit)
            else some (0, cs3)
        | [] => some (0, [])
      match expPart with
      | Option.none => Option.none
      | some (ex, cs4) =>
        let scale : Rat :=
          if 0 ≤ ex then (10 : Rat) ^ ex.toNat else 1 / (10 : Rat) ^ (-ex).toNat
        let mag : Rat := ((ip : Rat) + fp) * scale
        some (if neg then -mag else mag, cs4)

/-- Python-dict construction for JSON object members: a repeated key
replaces the earlier binding, as in `json.loads`. -/
def jObjSet (kvs : List (String × Json)) (k : String) (v : Json) :
    List (String × Json) :=
  if kvs.any (fun kv => kv.1 == k) then
    kvs.map (fun kv => if kv.1 == k then (k, v) else kv)
  else
    kvs ++ [(k, v)]

mutual

/-- One JSON value (leading whitespace allowed), recursive-descent with
fuel. -/
def parseValue (fuel : Nat) (cs : List Char) : Option (Json × List Char) :=
  match fuel with
  | 0 => Option.none
  | fuel + 1 =>
    let cs := cs.dropWhile isJsonWs
    match cs with
    | 'n' :: 'u' :: 'l' :: 'l' :: rest => some (.null, rest)
    | 't' :: 'r' :: 'u' :: 'e' :: rest => some (.bool true, rest)
    | 'f' :: 'a' :: 'l' :: 's' :: 'e' :: rest => some (.bool false, rest)
    | '"' :: rest =>
        match parseJStr (rest.length + 1) [] rest with
        | some (s, rest2) => some (.str s, rest2)
        | Option.none => Option.none
    | '[' :: rest =>
        let rest2 := rest.dropWhile isJsonWs
        match rest2 with
        | ']' :: rest3 => some (.arr [], rest3)
        | _ => parseArrElems fuel rest2 []
    | '{' :: rest =>
        let rest2 := rest.dropWhile isJsonWs
        match rest2 with
        | '}' :: rest3 => some (.obj [], rest3)
        | _ => parseObjMembers fuel rest2 []
    | c :: _ =>
        if c == '-' || c.isDigit then
          match parseJNum cs with
          | some (q, rest2) => some (.num q, rest2)
          | Option.none => Option.none
        else Option.none
    | [] => Option.none

/-- Array elements after `[` (first element expected at `cs`). -/
def parseArrElems (fuel : Nat) (cs : List Char) (acc : List Json) :
    Option (Json × List Char) :=
  match fuel with
  | 0 => Option.none
  | fuel + 1 =>
    match parseValue fuel cs with
    | Option.none => Option.none
    | some (v, rest) =>
      let rest := rest.dropWhile isJsonWs
      match rest with
      | ',' :: rest2 => parseArrElems fuel rest2 (v :: acc)
      | ']' :: rest2 => some (.arr (v :: acc).reverse, rest2)
      | _ => Option.none

/-- Object members after `{` (first key expected at `cs`). -/
def parseObjMembers (fuel : Nat) (cs : List Char)
    (acc : List (String × Json)) : Option (Json × List Char) :=
  match fuel with
  | 0 => Option.none
  | fuel + 1 =>
    match cs with
    | '"' :: rest =>
        match parseJStr (rest.length + 1) [] rest with
        | Option.none => Option.none
        | some (k, rest2) =>
          let rest2 := rest2.dropWhile isJsonWs
          match rest2 with
          | ':' :: rest3 =>
              match parseValue fuel rest3 with
              | Option.none => Option.none
              | some (v, rest4) =>
                let rest4 := rest4.dropWhile isJsonWs
                let acc := jObjSet acc k v
                match rest4 with
                | ',' :: rest5 => parseObjMembers fuel (rest5.dropWhile isJsonWs) acc
                | '}' :: rest5 => some (.obj acc, rest5)
                | _ => Option.none
          | _ => Option.none
    | _ => Option.none

end

/-- `json.loads(s)`: parse `s` as one JSON document with only
whitespace around it. -/
def jsonLoads (s : String) : Option Json :=
  let cs := s.toList
  match parseValue (2 * cs.length + 2) cs with
  | some (j, rest) => if (rest.dropWhile isJsonWs).isEmpty then some j else Option.none
  | Option.none => Option.none

/-! ### The fenced-code-block fallback

`_call_llm` falls back to
`re.search(r'(backtick backtick backtick)(?:json)?\s*([\s\S]*?)\s*(backtick backtick backtick)', result)`
when direct parsing fails.  `fencedSearch` models that search: scan for
the leftmost position where the whole pattern matches and return
capture group 1. -/

/-- The three-backtick fence. -/
def fenceChars : List Char := ['\x60', '\x60', '\x60']

/-- Does `\s*` followed by the closing fence match here?  (Greedy `\s*`
with backtracking succeeds iff the maximal whitespace run is followed by
the fence, since the fence begins with a non-whitespace character.) -/
def closesFence (cs : List Char) : Bool :=
  fenceChars.isPrefixOf (cs.dropWhile isReWs)

/-- The lazy group `([\s\S]*?)` followed by `\s*` and the closing
fence: the shortest prefix of `cs` after which `\s*`+fence matches. -/
def lazyCapture : List Char → List Char → Option String
  | acc, cs =>
      if closesFence cs then some (String.mk acc.reverse)
      else
        match cs with
        | [] => Option.none
        | c :: rest => lazyCapture (c :: acc) rest

/-- Match the whole fenced pattern anchored at `cs`: the opening fence,
then the greedy optional `json`, greedy `\s*`, and the lazy capture
(backtracking over the optional `json` when the remainder fails). -/
def matchFencedAt (cs : List Char) : Option String :=
  if fenceChars.isPrefixOf cs then
    let rest := cs.drop 3
    let tail_ (cs' : List Char) : Option String :=
      lazyCapture [] (cs'.dropWhile isReWs)
    match
      (if ['j', 's', 'o', 'n'].isPrefixOf rest then tail_ (rest.drop 4)
       else Option.none) with
    | some r => some r
    | Option.none => tail_ rest
  else Option.none

/-- `re.search` for the fenced pattern: the match at the leftmost
position where the full pattern succeeds (its capture group 1). -/
def fencedSearchChars : List Char → Option String
  | [] => Option.none
  | c :: rest =>
      match matchFencedAt (c :: rest) with
      | some r => some r
      | Option.none => fencedSearchChars rest

/-- Search the response string for a fenced code block. -/
def fencedSearch (s : String) : Option String :=
  fencedSearchChars s.toList

/-! ### `ExecutorAgent` -/

/-- What `_call_llm` reads off the `openai.chat.completions.create`
return value: the message content and the token usage counts. -/
structure LLMResp where
  content : String
  prompt_tokens : Nat
  completion_tokens : Nat

/-- `ExecutorAgent._calculate_cost(tokens_in, tokens_out)` (the float
literals `0.03`, `0.06`, `1000` taken exactly). -/
def calculate_cost (tokens_in tokens_out : Nat) : Rat :=
  ((tokens_in : Rat) * (3 / 100) + (tokens_out : Rat) * (6 / 100)) / 1000

/-- `ExecutorAgent._call_llm(prompt)`.  `api` stands for
`openai.chat.completions.create` applied to the parameters built from
`prompt`; `logUsage` for `self.budget_manager.log_usage` applied to the
computed cost.  The inner bare `except` around the fenced-block parse
and the outer `except Exception` both yield `None`. -/
def call_llm (api : String → Except String LLMResp)
    (logUsage : Rat → Except String Unit) (prompt : String) : Option Json :=
  let body : Except String (Option Json) := do
    let response ← api prompt
    let cost := calculate_cost response.prompt_tokens response.completion_tokens
    let _ ← logUsage cost
    match jsonLoads response.content with
    | some j => pure (some j)
    | Option.none =>
        match fencedSearch response.content with
        | some inner => pure (jsonLoads inner)
        | Option.none => pure Option.none
  match body with
  | .ok v => v
  | .error _ => Option.none

/-- Python truthiness of a parsed JSON value. -/
def jsonTruthy : Json → Bool
  | .null => false
  | .bool b => b
  | .num q => q != 0
  | .str s => s != ""
  | .arr xs => !xs.isEmpty
  | .obj kvs => !kvs.isEmpty

/-- `result.get(k, default)`: defined on JSON objects only
(`AttributeError` otherwise). -/
def jsonGet (v : Json) (k : String) (dflt : Json) : Except String Json :=
  match v with
  | .obj kvs =>
      match kvs.find? (fun kv => kv.1 == k) with
      | some kv => .ok kv.2
      | Option.none => .ok dflt
  | _ => .error "AttributeError: no attribute get"

/-- `len(v)` on a JSON value: strings, arrays and objects have a
length; `TypeError` otherwise. -/
def jsonLen : Json → Except String Nat
  | .str s => .ok s.length
  | .arr xs => .ok xs.length
  | .obj kvs => .ok kvs.length
  | _ => .error "TypeError: object has no len"

/-- `k in v` on a JSON value for a string `k`. -/
def jsonContains (v : Json) (k : String) : Except String Bool :=
  match v with
  | .obj kvs => .ok (kvs.any (fun kv => kv.1 == k))
  | .arr xs => .ok (xs.any (fun x => match x with | .str s => s == k | _ => false))
  | .str s => .ok (hasSubstr s k)
  | _ => .error "TypeError: argument is not iterable"

/-- The collaborators `ExecutorAgent.run` calls, as oracles:
`memory.get_recent_trades(5)`, `memory.get_all_trades()`,
`CollaborativeTradingPrompts.decision_maker(...)` (the prompt-template
collaborator, applied to this cycle's inputs),
`budget_manager.can_spend`, the LLM endpoint, `budget_manager.log_usage`,
`memory.update_feedback("executor", ...)` and the file write inside
`_save_response`. -/
structure RunEnv where
  get_recent_trades : Except String PyVal
  get_all_trades : Except String PyVal
  decision_maker : Except String String
  can_spend : Rat → Bool
  api : String → Except String LLMResp
  log_usage : Rat → Except String Unit
  update_feedback : Except String Unit
  save_response : Except String Unit

/-- The statements `run` executes after a truthy parse result: the
`logger.info` line evaluating `len(result.get('trade_actions', []))`
and `len(result.get('position_actions', []))`, then the
`"self_improvement" in result` check guarding
`memory.update_feedback`.  Any raise here is caught by `run`'s outer
`except`. -/
def run_post (result : Json) (update_feedback : Except String Unit) :
    Except String Bool := do
  let ta ← jsonGet result "trade_actions" (.arr [])
  let _ ← jsonLen ta
  let pa ← jsonGet result "position_actions" (.arr [])
  let _ ← jsonLen pa
  let memb ← jsonContains result "self_improvement"
  if memb then do
    let _ ← update_feedback
    pure memb
  else pure memb

/-- `ExecutorAgent.run(analysis_results, ...)`.  Returns the Python
return value (`None` or the parsed result) paired with the number of
LLM API invocations made (`openai.chat.completions.create` is reached
exactly when control enters `_call_llm`).  `self.cost_estimate` is the
literal `0.60`.  The whole body sits in `try ... except Exception:
return None`, and `_save_response` swallows its own failures. -/
def ExecutorAgent.run (env : RunEnv) (analysis_results : PyVal) :
    Option Json × Nat :=
  if !pyTruthy analysis_results then (Option.none, 0)
  else
    match env.get_recent_trades with
    | .error _ => (Option.none, 0)
    | .ok _ =>
      match env.get_all_trades with
      | .error _ => (Option.none, 0)
      | .ok _ =>
        match env.decision_maker with
        | .error _ => (Option.none, 0)
        | .ok prompt =>
          if !env.can_spend (60 / 100) then (Option.none, 0)
          else
            match call_llm env.api env.log_usage prompt with
            | Option.none => (Option.none, 1)
            | some result =>
              if jsonTruthy result then
                match run_post result env.update_feedback with
                | .error _ => (Option.none, 1)
                | .ok _ =>
                    let _ := match env.save_response with
                      | .ok _ => ()
                      | .error _ => ()
                    (some result, 1)
              else (Option.none, 1)

/-! ## Theorems for the claims -/

/-- C1: for every position-close request whose deal id is absent from
the supplied set of open positions, `close_position` returns
`(False, {"outcome": "FAILED", "reason": "Position not found"})` and
does not invoke the brokerage close-position endpoint (its call list
is empty). -/
theorem close_position_not_found (oracle : CloseCall → Except String Dict)
    (position_action : Dict) (positions : List PositionRow) (ts : String)
    (h : ∀ r ∈ positions, dictGet position_action "dealId" ≠ PyVal.str r.dealId) :
    close_position oracle position_action positions ts =
      ((false, [("outcome", .str "FAILED"), ("reason", .str "Position not found")]), []) := by
  have hm : matchingRows positions (dictGet position_action "dealId") = [] := by
    refine List.filter_eq_nil_iff.mpr ?_
    intro r hr
    have hne := h r hr
    cases hv : dictGet position_action "dealId" <;> simp [pyIsStr]
    intro heq
    exact hne (by rw [hv, heq])
  simp [close_position, hm]

/-- Witness for C1 at a concrete input: requested deal id `DIAAAA`,
position set holding only `DIBBBB`. -/
theorem close_position_not_found_witness :
    close_position (fun _ => .error "SDKError")
      [("dealId", .str "DIAAAA")] [⟨"DIBBBB", "BUY", 1⟩] "2025-01-01T00:00:00" =
      ((false, [("outcome", .str "FAILED"), ("reason", .str "Position not found")]), []) :=
  close_position_not_found _ _ _ _ (by intro r hr; simp at hr; rw [hr]; simp [dictGet, dictGetD])

/-- C9: for every close request whose deal id is found in the position
set, the close order submitted to the brokerage has direction opposite
to the position's recorded direction (`"SELL"` for a `"BUY"` position,
otherwise `"BUY"`) and size equal to the position's recorded size (the
position used is the first matching row, pandas `iloc[0]`). -/
theorem close_position_opposite (oracle : CloseCall → Except String Dict)
    (position_action : Dict) (positions : List PositionRow) (ts : String)
    (row : PositionRow) (rest : List PositionRow)
    (h : matchingRows positions (dictGet position_action "dealId") = row :: rest) :
    (close_position oracle position_action positions ts).2 =
      [⟨dictGet position_action "dealId",
        if row.direction == "BUY" then "SELL" else "BUY", row.size, "MARKET"⟩] := by
  simp only [close_position, h]
  cases oracle ⟨dictGet position_action "dealId",
      if row.direction == "BUY" then "SELL" else "BUY", row.size, "MARKET"⟩ <;> simp

/-- Witness for C9 at a concrete input: a `BUY` position of size 2 is
closed by one `SELL` order of size 2. -/
theorem close_position_opposite_witness :
    (close_position (fun _ => .ok [("dealStatus", .str "ACCEPTED")])
      [("dealId", .str "DI1")] [⟨"DI1", "BUY", 2⟩] "T").2 =
      [⟨PyVal.str "DI1", "SELL", 2, "MARKET"⟩] := by
  have h := close_position_opposite (fun _ => .ok [("dealStatus", .str "ACCEPTED")])
    [("dealId", .str "DI1")] [⟨"DI1", "BUY", 2⟩] "T" ⟨"DI1", "BUY", 2⟩ [] (by rfl)
  simpa [dictGet, dictGetD] using h

/-- Characterization of a non-raising `execute_trade` body: the
returned flag is `True`, a `create_open_position` call was made, and
the returned record's `outcome` is `EXECUTED` exactly when the
response's `dealStatus` is `ACCEPTED`, with `reason` copied from the
response. -/
theorem execute_trade_raw_ok (oracle : OpenCall → Except String Dict)
    (acctCheck : Except String Unit) (trade : Dict) (currency ts : String)
    (r : Bool × Dict)
    (h : execute_trade_raw oracle acctCheck trade currency ts = .ok r) :
    r.1 = true ∧ ∃ call resp, oracle call = .ok resp ∧
      dictGet r.2 "outcome" =
        .str (if pyIsStr (dictGet resp "dealStatus") "ACCEPTED"
              then "EXECUTED" else "FAILED") ∧
      dictGet r.2 "reason" = dictGetD resp "reason" (.str "") := by
  unfold execute_trade_raw at h
  simp only [bind, Except.bind, pure, Except.pure] at h
  repeat' split at h
  all_goals cases h
  all_goals
    exact ⟨rfl, _, _, by assumption, by simp_all [dictGet, dictGetD],
           by simp_all [dictGet, dictGetD]⟩

/-- C8: whenever the brokerage open-position call returns without
raising (the body evaluates to `.ok r`), `execute_trade`'s first return
value is `True` — even when the response's status is not `ACCEPTED` and
the record's `outcome` is `FAILED` (see the witness); and the first
return value is `False` only when an exception was caught. -/
theorem execute_trade_true_unless_raise (oracle : OpenCall → Except String Dict)
    (acctCheck : Except String Unit) (trade : Dict) (currency ts : String) :
    (∀ r, execute_trade_raw oracle acctCheck trade currency ts = .ok r →
       r.1 = true ∧ execute_trade oracle acctCheck trade currency ts = r) ∧
    ((execute_trade oracle acctCheck trade currency ts).1 = false →
       ∃ e, execute_trade_raw oracle acctCheck trade currency ts = .error e) := by
  constructor
  · intro r hr
    exact ⟨(execute_trade_raw_ok _ _ _ _ _ _ hr).1, by simp [execute_trade, hr]⟩
  · intro hfalse
    cases hraw : execute_trade_raw oracle acctCheck trade currency ts with
    | error e => exact ⟨e, rfl⟩
    | ok r =>
        exfalso
        have h1 := (execute_trade_raw_ok _ _ _ _ _ _ hraw).1
        have h2 : execute_trade oracle acctCheck trade currency ts = r := by
          simp [execute_trade, hraw]
        rw [h2, h1] at hfalse
        simp at hfalse

/-- Witness for C8: a rejected submission (`dealStatus` `REJECTED`)
still returns `True` as the first component while tagging the record
`FAILED`. -/
theorem execute_trade_true_unless_raise_witness :
    (execute_trade (fun _ => .ok [("dealStatus", .str "REJECTED")]) (.ok ())
      [("epic", .str "CS.D.EURUSD.TODAY.IP"), ("direction", .str "BUY"), ("size", .rat 1)]
      "GBP" "T").1 = true ∧
    dictGet (execute_trade (fun _ => .ok [("dealStatus", .str "REJECTED")]) (.ok ())
      [("epic", .str "CS.D.EURUSD.TODAY.IP"), ("direction", .str "BUY"), ("size", .rat 1)]
      "GBP" "T").2 "outcome" = .str "FAILED" := by
  have h := (execute_trade_true_unless_raise (fun _ => .ok [("dealStatus", .str "REJECTED")])
    (.ok ()) [("epic", .str "CS.D.EURUSD.TODAY.IP"), ("direction", .str "BUY"), ("size", .rat 1)]
    "GBP" "T").1 _ rfl
  constructor
  · rw [h.2]
  · rw [h.2]; rfl

/-- C4: for every open-position submission, a raised exception yields
the structured record `(False, {"outcome": "ERROR", "reason": str(e)})`
(never a propagated exception — `execute_trade` is total by
construction), and a response whose status string is not the accepted
status `ACCEPTED` yields a record with outcome `FAILED` and a `reason`
taken from the response. -/
theorem execute_trade_failure_reporting (oracle : OpenCall → Except String Dict)
    (acctCheck : Except String Unit) (trade : Dict) (currency ts : String) :
    (∀ e, execute_trade_raw oracle acctCheck trade currency ts = .error e →
       execute_trade oracle acctCheck trade currency ts =
         (false, [("outcome", .str "ERROR"), ("reason", .str e)])) ∧
    (∀ resp r, (∀ call, oracle call = .ok resp) →
       pyIsStr (dictGet resp "dealStatus") "ACCEPTED" = false →
       execute_trade_raw oracle acctCheck trade currency ts = .ok r →
       dictGet r.2 "outcome" = .str "FAILED" ∧
       dictGet r.2 "reason" = dictGetD resp "reason" (.str "")) := by
  constructor
  · intro e he; simp [execute_trade, he]
  · intro resp r hor hst hr
    obtain ⟨-, call, resp', hcall, hout, hreas⟩ := execute_trade_raw_ok _ _ _ _ _ _ hr
    have hre : resp' = resp := by
      have := (hor call) ▸ hcall
      exact (Except.ok.injEq _ _).mp this.symm
    subst hre
    rw [hst] at hout
    simp at hout
    exact ⟨hout, hreas⟩

/-- Witness for C4: an exception gives the `ERROR` record; a `REJECTED`
status gives outcome `FAILED`. -/
theorem execute_trade_failure_reporting_witness :
    execute_trade (fun _ => .error "ConnectionError") (.ok ())
      [("epic", .str "E1"), ("direction", .str "BUY"), ("size", .rat 1)] "GBP" "T" =
      (false, [("outcome", .str "ERROR"), ("reason", .str "ConnectionError")]) ∧
    dictGet (execute_trade
      (fun _ => .ok [("dealStatus", .str "REJECTED"), ("reason", .str "MARKET_CLOSED")]) (.ok ())
      [("epic", .str "E1"), ("direction", .str "BUY"), ("size", .rat 1)] "GBP" "T").2 "outcome" =
      .str "FAILED" := by
  constructor
  · exact (execute_trade_failure_reporting (fun _ => .error "ConnectionError") (.ok ())
      [("epic", .str "E1"), ("direction", .str "BUY"), ("size", .rat 1)] "GBP" "T").1
      "ConnectionError" rfl
  · have h := (execute_trade_failure_reporting
      (fun _ => .ok [("dealStatus", .str "REJECTED"), ("reason", .str "MARKET_CLOSED")]) (.ok ())
      [("epic", .str "E1"), ("direction", .str "BUY"), ("size", .rat 1)] "GBP" "T").2
      [("dealStatus", .str "REJECTED"), ("reason", .str "MARKET_CLOSED")] _
      (fun _ => rfl) rfl rfl
    exact h.1

/-- C2: for every instrument code, the price snapshot divides the
broker's raw bid and offer by 100 when the code contains the substring
`JPY` and by 10000 otherwise. -/
theorem get_price_snapshot_scaling (outer d : Dict) (epic ts : String) (rb ro : Rat)
    (houter : dictSubscript outer "snapshot" = .ok (.dict d))
    (hcont : dictContains outer "snapshot" = true)
    (hb : dictGet d "bid" = .rat rb) (ho : dictGet d "offer" = .rat ro) :
    get_price_snapshot (.ok (.dict outer)) epic ts =
      some [("bid", .rat (rb / (if hasSubstr epic "JPY" then 100 else 10000))),
            ("offer", .rat (ro / (if hasSubstr epic "JPY" then 100 else 10000))),
            ("epic", .str epic), ("timestamp", .str ts)] := by
  have hne : outer.isEmpty = false := by
    cases outer with
    | nil => simp [dictContains] at hcont
    | cons a l => rfl
  simp [get_price_snapshot, bind, Except.bind, pure, Except.pure, pyTruthy, hne,
        pyContains, hcont, pySubscript, houter, pyGet, hb, ho, pyToNum]

/-- Witness for C2: a JPY-containing code with raw bid 10000 returns
decimal bid 100.00, and a non-JPY code with raw bid 10000 returns 1.00. -/
theorem get_price_snapshot_scaling_witness :
    get_price_snapshot
      (.ok (.dict [("snapshot", .dict [("bid", .rat 10000), ("offer", .rat 10000)])]))
      "CS.D.USDJPY.TODAY.IP" "T" =
      some [("bid", .rat 100), ("offer", .rat 100),
            ("epic", .str "CS.D.USDJPY.TODAY.IP"), ("timestamp", .str "T")] ∧
    get_price_snapshot
      (.ok (.dict [("snapshot", .dict [("bid", .rat 10000), ("offer", .rat 10000)])]))
      "CS.D.EURUSD.TODAY.IP" "T" =
      some [("bid", .rat 1), ("offer", .rat 1),
            ("epic", .str "CS.D.EURUSD.TODAY.IP"), ("timestamp", .str "T")] := by
  constructor
  · rw [get_price_snapshot_scaling
      [("snapshot", .dict [("bid", .rat 10000), ("offer", .rat 10000)])]
      [("bid", .rat 10000), ("offer", .rat 10000)]
      "CS.D.USDJPY.TODAY.IP" "T" 10000 10000 rfl rfl rfl rfl]
    norm_num [show hasSubstr "CS.D.USDJPY.TODAY.IP" "JPY" = true from rfl]
  · rw [get_price_snapshot_scaling
      [("snapshot", .dict [("bid", .rat 10000), ("offer", .rat 10000)])]
      [("bid", .rat 10000), ("offer", .rat 10000)]
      "CS.D.EURUSD.TODAY.IP" "T" 10000 10000 rfl rfl rfl rfl]
    norm_num [show hasSubstr "CS.D.EURUSD.TODAY.IP" "JPY" = false from rfl]

/-- Assoc-list lookup misses every key outside the key list. -/
theorem lookup_eq_none_of_not_mem_keys {l : List (String × String)} {a : String}
    (h : a ∉ l.map Prod.fst) : l.lookup a = Option.none := by
  induction l with
  | nil => rfl
  | cons p tl ih =>
      simp only [List.map_cons, List.mem_cons, not_or] at h
      have hb : (a == p.1) = false := beq_eq_false_iff_ne.mpr h.1
      simp only [List.lookup, hb]
      exact ih h.2

/-- C3: for every instrument code not present in the static 12-entry
code-to-ticker table, `get_market_data` returns an empty mapping
without raising (the model is total) and without calling the
market-data provider (its call list is empty). -/
theorem get_market_data_unknown_epic (poly : PolyCall → Except String (List Agg))
    (igFetch : Except String PyVal) (epic : String)
    (timeframes : List (String × Dict)) (dstr : Rat → String)
    (toDate : String) (fmt : Rat → String) (ts : String)
    (h : epic ∉ ticker_map.map Prod.fst) :
    get_market_data poly igFetch epic timeframes dstr toDate fmt ts = ([], []) ∧
    ticker_map.length = 12 := by
  have hl : ticker_map.lookup epic = Option.none := lookup_eq_none_of_not_mem_keys h
  exact ⟨by simp [get_market_data, hl], rfl⟩

/-- Witness for C3 at the concrete unknown code `CS.D.XAUUSD.TODAY.IP`. -/
theorem get_market_data_unknown_epic_witness :
    get_market_data (fun _ => .error "should not be called") (.error "down")
      "CS.D.XAUUSD.TODAY.IP" default_timeframes (fun _ => "d") "t" (fun _ => "f") "T" =
      ([], []) ∧ ticker_map.length = 12 :=
  get_market_data_unknown_epic _ _ _ _ _ _ _ _ (by decide)

/-- C5: for every LLM response body, the parser first attempts direct
JSON parsing; if that fails it searches for a fenced code block and
parses its contents (the concrete body of the claim parses to
`{"trade_actions": []}`); if both attempts fail the call yields `None`. -/
theorem call_llm_parse (resp : LLMResp) (prompt : String) (tin tout : Nat) :
    (∀ j, jsonLoads resp.content = some j →
       call_llm (fun _ => .ok resp) (fun _ => .ok ()) prompt = some j) ∧
    (jsonLoads resp.content = Option.none →
       call_llm (fun _ => .ok resp) (fun _ => .ok ()) prompt =
         (match fencedSearch resp.content with
          | some inner => jsonLoads inner
          | Option.none => Option.none)) ∧
    call_llm
      (fun _ => .ok ⟨"\x60\x60\x60json\n\x7b\"trade_actions\": []\x7d\n\x60\x60\x60", tin, tout⟩)
      (fun _ => .ok ()) prompt = some (.obj [("trade_actions", .arr [])]) := by
  refine ⟨?_, ?_, ?_⟩
  · intro j hj
    simp [call_llm, bind, Except.bind, pure, Except.pure, hj]
  · intro hnone
    simp only [call_llm, bind, Except.bind, pure, Except.pure, hnone]
    cases fencedSearch resp.content <;> rfl
  · rfl

/-- Witness for C5: the fenced example body parses via the fallback,
and a directly-valid body parses via the first attempt. -/
theorem call_llm_parse_witness :
    call_llm
      (fun _ => .ok ⟨"\x60\x60\x60json\n\x7b\"trade_actions\": []\x7d\n\x60\x60\x60", 100, 20⟩)
      (fun _ => .ok ()) "prompt" = some (.obj [("trade_actions", .arr [])]) ∧
    call_llm (fun _ => .ok ⟨"\x7b\x7d", 1, 1⟩) (fun _ => .ok ()) "prompt" =
      some (.obj []) := by
  constructor
  · exact (call_llm_parse ⟨"x", 0, 0⟩ "prompt" 100 20).2.2
  · exact (call_llm_parse ⟨"\x7b\x7d", 1, 1⟩ "prompt" 0 0).1 _ rfl

/-- C6: whenever the budget gate rejects the estimated cost (0.60),
`ExecutorAgent.run` returns `None` and the LLM-call count is 0. -/
theorem run_budget_rejected (env : RunEnv) (analysis_results : PyVal)
    (h : env.can_spend (60 / 100) = false) :
    ExecutorAgent.run env analysis_results = (Option.none, 0) := by
  unfold ExecutorAgent.run
  cases hp : pyTruthy analysis_results
  · simp
  · simp only [hp, Bool.not_true, Bool.false_eq_true, if_false]
    cases env.get_recent_trades
    · simp
    · cases env.get_all_trades
      · simp
      · cases env.decision_maker
        · simp
        · simp [h]

/-- Witness for C6 at a concrete environment whose budget gate refuses. -/
theorem run_budget_rejected_witness :
    ExecutorAgent.run
      ⟨.ok PyVal.none, .ok PyVal.none, .ok "p", fun _ => false,
       fun _ => .error "unreachable", fun _ => .ok (), .ok (), .ok ()⟩
      (.str "analysis") = (Option.none, 0) :=
  run_budget_rejected _ _ rfl

/-- An erroring LLM endpoint makes `_call_llm` return `None`. -/
theorem call_llm_api_error (api : String → Except String LLMResp)
    (logUsage : Rat → Except String Unit) (prompt : String) (e : String)
    (h : api prompt = .error e) :
    call_llm api logUsage prompt = Option.none := by
  simp [call_llm, bind, Except.bind, h]

/-- The post-parse block raises when `update_feedback` raises (given
the `self_improvement` membership test evaluates to `True`). -/
theorem run_post_error (result : Json) (upd : Except String Unit) (e : String)
    (hmemb : jsonContains result "self_improvement" = .ok true)
    (hupd : upd = .error e) :
    ∃ e2, run_post result upd = .error e2 := by
  subst hupd
  unfold run_post
  simp only [bind, Except.bind]
  repeat' split
  all_goals first | exact ⟨_, rfl⟩ | simp_all

/-- C7: `ExecutorAgent.run` never raises to its caller (the model is a
total function into `Option Json × Nat` because every raise is caught
by the outer `except`), and each failure path returns `None`: missing
analysis results, a raise in the memory reads or the prompt builder,
budget rejection, an LLM API error, an unparsable response, and a raise
in the feedback update. -/
theorem run_failure_paths (env : RunEnv) (analysis_results : PyVal) :
    (pyTruthy analysis_results = false →
       ExecutorAgent.run env analysis_results = (Option.none, 0)) ∧
    (∀ e, env.get_recent_trades = .error e →
       ExecutorAgent.run env analysis_results = (Option.none, 0)) ∧
    (∀ e, env.get_all_trades = .error e →
       (ExecutorAgent.run env analysis_results).1 = Option.none) ∧
    (∀ e, env.decision_maker = .error e →
       (ExecutorAgent.run env analysis_results).1 = Option.none) ∧
    (env.can_spend (60 / 100) = false →
       (ExecutorAgent.run env analysis_results).1 = Option.none) ∧
    (∀ e, (∀ p, env.api p = .error e) →
       (ExecutorAgent.run env analysis_results).1 = Option.none) ∧
    (∀ prompt, env.decision_maker = .ok prompt →
       call_llm env.api env.log_usage prompt = Option.none →
       (ExecutorAgent.run env analysis_results).1 = Option.none) ∧
    (∀ prompt result e, env.decision_maker = .ok prompt →
       call_llm env.api env.log_usage prompt = some result →
       jsonContains result "self_improvement" = .ok true →
       env.update_feedback = .error e →
       (ExecutorAgent.run env analysis_results).1 = Option.none) := by
  refine ⟨?_, ?_, ?_, ?_, ?_, ?_, ?_, ?_⟩
  · intro h
    unfold ExecutorAgent.run
    simp [h]
  · intro e he
    unfold ExecutorAgent.run
    cases hp : pyTruthy analysis_results
    · simp
    · simp [he]
  · intro e he
    unfold ExecutorAgent.run
    cases hp : pyTruthy analysis_results
    · simp
    · cases env.get_recent_trades <;> simp [he]
  · intro e he
    unfold ExecutorAgent.run
    cases hp : pyTruthy analysis_results
    · simp
    · cases env.get_recent_trades <;> cases env.get_all_trades <;> simp [he]
  · intro h
    unfold ExecutorAgent.run
    cases hp : pyTruthy analysis_results
    · simp
    · cases env.get_recent_trades <;> cases env.get_all_trades <;>
        cases env.decision_maker <;> simp [h]
  · intro e hap
    unfold ExecutorAgent.run
    cases hp : pyTruthy analysis_results
    · simp
    · cases env.get_recent_trades <;> cases env.get_all_trades <;>
        cases env.decision_maker <;>
        simp [call_llm_api_error env.api env.log_usage _ e (hap _)] <;>
        (try (split <;> rfl))
  · intro prompt hdm hnone
    unfold ExecutorAgent.run
    cases hp : pyTruthy analysis_results
    · simp
    · cases env.get_recent_trades <;> cases env.get_all_trades <;> simp [hdm, hnone] <;>
        (try (split <;> rfl))
  · intro prompt result e hdm hsome hmemb hupd
    obtain ⟨e2, hpost⟩ := run_post_error result env.update_feedback e hmemb hupd
    unfold ExecutorAgent.run
    cases hp : pyTruthy analysis_results
    · simp
    · cases env.get_recent_trades <;> cases env.get_all_trades <;>
        simp [hdm, hsome, hpost] <;>
        (try ((repeat' split) <;> rfl))

/-- Witness for C7 at a concrete environment whose LLM endpoint raises:
the run returns `None`. -/
theorem run_failure_paths_witness :
    (ExecutorAgent.run
      ⟨.ok PyVal.none, .ok PyVal.none, .ok "p", fun _ => true,
       fun _ => .error "APIConnectionError", fun _ => .ok (), .ok (), .ok ()⟩
      (.str "analysis")).1 = Option.none :=
  (run_failure_paths _ _).2.2.2.2.2.1 "APIConnectionError" (fun _ => rfl)

/-- The payload key produced by a loop iteration is the iteration's own
timeframe key. -/
theorem mdStep_some_key (poly : PolyCall → Except String (List Agg))
    (ticker : String) (dstr : Rat → String) (toDate : String) (fmt : Rat → String)
    (key : String) (config : Dict) (k2 : String) (v : PyVal) (nc : List PolyCall)
    (h : mdStep poly ticker dstr toDate fmt key config = (.ok (some (k2, v)), nc)) :
    k2 = key := by
  unfold mdStep at h
  rcases hp : mdParse ticker dstr toDate config with e | call
  all_goals rw [hp] at h
  · simp at h
  · dsimp only at h
    rcases hpo : poly call with e2 | aggs
    all_goals rw [hpo] at h
    all_goals dsimp only at h
    · simp at h
    · by_cases he : aggs.isEmpty <;> simp [he] at h
      simp_all

/-- Keys of a dict after Python assignment `d[k] = v`. -/
theorem keys_dictSet (d : Dict) (k : String) (v : PyVal) :
    (dictSet d k v).map Prod.fst =
      if dictContains d k then d.map Prod.fst else d.map Prod.fst ++ [k] := by
  unfold dictSet
  split
  · rw [List.map_map]
    refine List.map_eq_map_iff.mpr ?_
    intro kv hkv
    by_cases hc : kv.1 = k <;> simp [hc]
  · rw [List.map_append]
    rfl

/-- Membership in the keys of `dictSet d k v`. -/
theorem mem_keys_dictSet {d : Dict} {k k' : String} {v : PyVal}
    (h : k' ∈ (dictSet d k v).map Prod.fst) : k' ∈ d.map Prod.fst ∨ k' = k := by
  rw [keys_dictSet] at h
  split at h
  · exact Or.inl h
  · rcases List.mem_append.mp h with h1 | h2
    · exact Or.inl h1
    · right; simpa using h2

/-- Every key of a completed timeframe loop comes from the accumulator
or from an iteration whose bar fetch returned a non-empty list. -/
theorem mdLoop_ok_keys (poly : PolyCall → Except String (List Agg))
    (ticker : String) (dstr : Rat → String) (toDate : String) (fmt : Rat → String) :
    ∀ (items : List (String × Dict)) (acc : Dict) (calls : List PolyCall)
      (res : Dict) (cs : List PolyCall),
      mdLoop poly ticker dstr toDate fmt items acc calls = (.ok res, cs) →
      ∀ k, k ∈ res.map Prod.fst →
        k ∈ acc.map Prod.fst ∨
        ∃ cfg v nc, (k, cfg) ∈ items ∧
          mdStep poly ticker dstr toDate fmt k cfg = (.ok (some (k, v)), nc) := by
  intro items
  induction items with
  | nil =>
      intro acc calls res cs h k hk
      unfold mdLoop at h
      cases h
      exact Or.inl hk
  | cons it tl ih =>
      intro acc calls res cs h k hk
      obtain ⟨key, config⟩ := it
      unfold mdLoop at h
      cases hstep : mdStep poly ticker dstr toDate fmt key config with
      | mk sfst ssnd =>
        rw [hstep] at h
        match sfst, h with
        | .error e, h => simp at h
        | .ok Option.none, h =>
            rcases ih acc (calls ++ ssnd) res cs h k hk with h1 | ⟨cfg, v, nc, hm, hs⟩
            · exact Or.inl h1
            · exact Or.inr ⟨cfg, v, nc, List.mem_cons_of_mem _ hm, hs⟩
        | .ok (some (k2, v2)), h =>
            have hk2 : k2 = key := mdStep_some_key _ _ _ _ _ _ _ _ _ _ hstep
            subst hk2
            rcases ih (dictSet acc k2 v2) (calls ++ ssnd) res cs h k hk with h1 | ⟨cfg, v, nc, hm, hs⟩
            · rcases mem_keys_dictSet h1 with h2 | h2
              · exact Or.inl h2
              · subst h2
                exact Or.inr ⟨config, v2, ssnd, List.mem_cons_self _ _, hstep⟩
            · exact Or.inr ⟨cfg, v, nc, List.mem_cons_of_mem _ hm, hs⟩

/-- In a list with distinct keys, a key determines its record. -/
theorem nodup_keys_config_eq {l : List (String × Dict)}
    (h : (l.map Prod.fst).Nodup) {k : String} {c c' : Dict}
    (h1 : (k, c) ∈ l) (h2 : (k, c') ∈ l) : c = c' := by
  induction l with
  | nil => cases h1
  | cons p tl ih =>
      rw [List.map_cons, List.nodup_cons] at h
      rcases List.mem_cons.mp h1 with e1 | m1 <;> rcases List.mem_cons.mp h2 with e2 | m2
      · rw [← e1] at e2
        exact (Prod.mk.injEq _ _ _ _ ▸ e2).2.symm
      · exfalso
        apply h.1
        rw [← e1]
        exact List.mem_map.mpr ⟨(k, c'), m2, rfl⟩
      · exfalso
        apply h.1
        rw [← e2]
        exact List.mem_map.mpr ⟨(k, c), m1, rfl⟩
      · exact ih h.2 m1 m2

/-- C10 (amended): for every known instrument code and every supplied
timeframe specification whose keys are distinct (Python dict keys
always are) and do not themselves include `"current"`, the keys of the
mapping returned by `get_market_data` are a subset of the supplied
timeframe keys plus `"current"`; a timeframe whose bar fetch returns no
bars is omitted; and `"current"` is present only when the price
snapshot is non-empty.  (Without the `"current"`-key proviso the claim
fails: see the counterexample.) -/
theorem get_market_data_keys (poly : PolyCall → Except String (List Agg))
    (igFetch : Except String PyVal) (epic ticker : String)
    (timeframes : List (String × Dict)) (dstr : Rat → String)
    (toDate : String) (fmt : Rat → String) (ts : String)
    (hepic : ticker_map.lookup epic = some ticker)
    (hnodup : (timeframes.map Prod.fst).Nodup)
    (hcur : "current" ∉ timeframes.map Prod.fst) :
    (∀ k ∈ (get_market_data poly igFetch epic timeframes dstr toDate fmt ts).1.map Prod.fst,
       k ∈ timeframes.map Prod.fst ∨ k = "current") ∧
    ("current" ∈ (get_market_data poly igFetch epic timeframes dstr toDate fmt ts).1.map Prod.fst →
       ∃ d, get_price_snapshot igFetch epic ts = some d ∧ d.isEmpty = false) ∧
    (∀ k cfg, (k, cfg) ∈ timeframes →
       (mdStep poly ticker dstr toDate fmt k cfg).1 = .ok Option.none →
       k ∉ (get_market_data poly igFetch epic timeframes dstr toDate fmt ts).1.map Prod.fst) := by
  unfold get_market_data
  rw [hepic]
  dsimp only
  cases hloop : mdLoop poly ticker dstr toDate fmt timeframes [] [] with
  | mk lfst lsnd =>
    match lfst, hloop with
    | .error e, hloop =>
        refine ⟨?_, ?_, ?_⟩ <;> simp
    | .ok results, hloop =>
        have hkeys := mdLoop_ok_keys poly ticker dstr toDate fmt timeframes [] [] results lsnd hloop
        have hres : ∀ k, k ∈ results.map Prod.fst →
            ∃ cfg v nc, (k, cfg) ∈ timeframes ∧
              mdStep poly ticker dstr toDate fmt k cfg = (.ok (some (k, v)), nc) := by
          intro k hk
          rcases hkeys k hk with h1 | h2
          · simp at h1
          · exact h2
        have hinr : ∀ k, k ∈ results.map Prod.fst → k ∈ timeframes.map Prod.fst := by
          intro k hk
          rcases hres k hk with ⟨cfg, v, nc, hm, _⟩
          exact List.mem_map.mpr ⟨(k, cfg), hm, rfl⟩
        have homit : ∀ k cfg, (k, cfg) ∈ timeframes →
            (mdStep poly ticker dstr toDate fmt k cfg).1 = .ok Option.none →
            k ∉ results.map Prod.fst := by
          intro k cfg hm hnone hk
          rcases hres k hk with ⟨cfg2, v, nc, hm2, hs⟩
          have hceq : cfg2 = cfg := nodup_keys_config_eq hnodup hm2 hm
          subst hceq
          rw [hs] at hnone
          simp at hnone
        dsimp only
        cases hsnap : get_price_snapshot igFetch epic ts with
        | none =>
            simp only [hsnap]
            refine ⟨?_, ?_, ?_⟩
            · intro k hk
              exact Or.inl (hinr k hk)
            · intro hc
              exact absurd (hinr _ hc) hcur
            · intro k cfg hm hnone
              exact homit k cfg hm hnone
        | some d =>
            simp only [hsnap]
            by_cases hde : d.isEmpty
            · simp only [hde, Bool.not_true, Bool.false_eq_true, if_false]
              refine ⟨?_, ?_, ?_⟩
              · intro k hk
                exact Or.inl (hinr k hk)
              · intro hc
                exact absurd (hinr _ hc) hcur
              · intro k cfg hm hnone
                exact homit k cfg hm hnone
            · rw [Bool.not_eq_true] at hde
              simp only [hde, Bool.not_false, if_true]
              refine ⟨?_, ?_, ?_⟩
              · intro k hk
                rcases mem_keys_dictSet hk with h1 | h1
                · exact Or.inl (hinr k h1)
                · exact Or.inr h1
              · intro _
                exact ⟨d, rfl, hde⟩
              · intro k cfg hm hnone hk
                rcases mem_keys_dictSet hk with h1 | h1
                · exact homit k cfg hm hnone h1
                · rw [h1] at hm
                  exact hcur (List.mem_map.mpr ⟨("current", cfg), hm, rfl⟩)

/-- Counterexample to C10 as stated: with the supplied timeframe
specification `{"current": {"timeframe": "hour", "lookback_days": 1}}`,
a bar fetch returning one aggregate, and a failing snapshot fetch, the
returned mapping has key `"current"` while the price snapshot is empty
(`None`) — contradicting the clause that `"current"` is present only
when the price snapshot is non-empty. -/
theorem get_market_data_current_key_counterexample :
    "current" ∈ ((get_market_data (fun _ => .ok [⟨0, 1, 2, 0, 1, 5⟩]) (.error "down")
      "CS.D.EURUSD.TODAY.IP"
      [("current", [("timeframe", .str "hour"), ("lookback_days", .rat 1)])]
      (fun _ => "d") "t" (fun _ => "f") "T").1.map Prod.fst) ∧
    get_price_snapshot (.error "down") "CS.D.EURUSD.TODAY.IP" "T" = Option.none := by
  constructor
  · have hk : ((get_market_data (fun _ => .ok [⟨0, 1, 2, 0, 1, 5⟩]) (.error "down")
        "CS.D.EURUSD.TODAY.IP"
        [("current", [("timeframe", .str "hour"), ("lookback_days", .rat 1)])]
        (fun _ => "d") "t" (fun _ => "f") "T").1.map Prod.fst) = ["current"] := rfl
    rw [hk]
    exact List.mem_singleton.mpr rfl
  · rfl

/-- Witness for the amended C10 at a concrete input: with the default
timeframes and a provider returning no bars, the key `m15` is omitted. -/
theorem get_market_data_keys_witness :
    "m15" ∉ ((get_market_data (fun _ => .ok []) (.error "down") "CS.D.EURUSD.TODAY.IP"
      default_timeframes (fun _ => "d") "t" (fun _ => "f") "T").1.map Prod.fst) :=
  (get_market_data_keys (fun _ => .ok []) (.error "down") "CS.D.EURUSD.TODAY.IP" "C:EURUSD"
    default_timeframes (fun _ => "d") "t" (fun _ => "f") "T" rfl (by decide) (by decide)).2.2
    "m15" [("timeframe", .str "15:minute"), ("lookback_days", .rat 1)]
    (List.mem_cons_self _ _) (by rfl)

end Forest
